import Mathlib

/-!
Verification of the AIFSA stock-dashboard frontend.

This file gives a shallow embedding of the frontend logic described in the
specification and proves (or refutes) the stated properties:

* `exponentialBackoffFetch` — the retry-with-exponential-backoff HTTP wrapper
  of the chat client (`src/frontend/app/search/page.tsx`).
* `callGeminiAPI` response handling — mapping a (possibly malformed) model
  response to a chat message (`src/frontend/app/search/page.tsx`).
* `getTrendingStocks` — fetching and ranking trending stocks
  (`src/frontend/app/trending/page.tsx`).
* the sentiment badge class selection (`src/frontend/components/StockDetails.tsx`).
* the slideshow index updates (`src/frontend/components/StockScene.tsx`).

Effectful pieces (HTTP requests, timers) are embedded by passing the sequence
of externally observed outcomes as an explicit argument and recording, in the
result, the number of attempts performed and the total time slept.
-/

/-- Outcome of one `fetch(url, options)` call as observed by the wrapper:
either a `Response` object (with its `ok` flag and numeric `status`), or a
thrown network error (`fetch` rejecting before a response exists). -/
inductive FetchOutcome where
  | response (ok : Bool) (status : Nat)
  | networkError
  deriving DecidableEq, Repr

/-- The `ok` flag of an attempt outcome; a thrown network error has no
response object, hence is not `ok`. -/
def FetchOutcome.isOk : FetchOutcome → Bool
  | .response ok _ => ok
  | .networkError => false

/-- How a run of `exponentialBackoffFetch` ended:
`returned i` — the `return response` inside the loop fired on attempt `i`
(0-based); `threwFromCatch` — the `throw error` in the catch block on the
last attempt; `threwExhausted` — the `throw` after the loop (reachable only
when `maxRetries = 0`). -/
inductive BackoffOutcome where
  | returned (attemptIdx : Nat)
  | threwFromCatch
  | threwExhausted
  deriving DecidableEq, Repr

/-- Observable result of a run of the wrapper: how it ended, how many
`fetch` calls it made, and the total milliseconds spent in
`setTimeout`-based sleeps. -/
structure BackoffResult where
  outcome : BackoffOutcome
  attempts : Nat
  totalDelay : Nat
  deriving DecidableEq, Repr

/-- One-to-one embedding of the `for (let attempt = 0; attempt < maxRetries;
attempt++)` loop of `exponentialBackoffFetch`.  `remaining` is the number of
loop iterations still allowed (`maxRetries - attempt` at every call site), so
the recursion is structural.  Branches follow the source:

* `response.ok` → `return response`;
* `response.status === 429 && attempt < maxRetries - 1` → sleep `delay`,
  double it, `continue`;
* otherwise the code `throw`s inside the `try`, landing in the `catch`
  block of the same iteration, which sleeps and retries whenever
  `attempt < maxRetries - 1` and rethrows otherwise;
* a thrown network error goes to the same `catch` block directly. -/
def backoffGo (outcomes : Nat → FetchOutcome) (maxRetries : Nat) :
    Nat → Nat → Nat → Nat → BackoffResult
  | 0, attempt, _delay, acc => ⟨.threwExhausted, attempt, acc⟩
  | remaining + 1, attempt, delay, acc =>
    match outcomes attempt with
    | .response true _status => ⟨.returned attempt, attempt + 1, acc⟩
    | .response false status =>
      if status = 429 ∧ attempt < maxRetries - 1 then
        backoffGo outcomes maxRetries remaining (attempt + 1) (delay * 2) (acc + delay)
      else
        if attempt < maxRetries - 1 then
          backoffGo outcomes maxRetries remaining (attempt + 1) (delay * 2) (acc + delay)
        else
          ⟨.threwFromCatch, attempt + 1, acc⟩
    | .networkError =>
      if attempt < maxRetries - 1 then
        backoffGo outcomes maxRetries remaining (attempt + 1) (delay * 2) (acc + delay)
      else
        ⟨.threwFromCatch, attempt + 1, acc⟩

/-- The wrapper `exponentialBackoffFetch(url, options, maxRetries)`: the loop
starts at `attempt = 0` with `delay = 1000` and no time slept yet.
`outcomes i` is what the `i`-th `fetch` call produces. -/
def exponentialBackoffFetch (outcomes : Nat → FetchOutcome) (maxRetries : Nat) :
    BackoffResult :=
  backoffGo outcomes maxRetries maxRetries 0 1000 0

/-- Attempt sequence in which every `fetch` yields an HTTP 429 response. -/
def always429 : Nat → FetchOutcome := fun _ => .response false 429

/-- Attempt sequence in which every `fetch` yields a successful (200)
response. -/
def alwaysOk : Nat → FetchOutcome := fun _ => .response true 200

/-- Attempt sequence in which every `fetch` yields an HTTP 500 response:
a non-success status other than 429. -/
def always500 : Nat → FetchOutcome := fun _ => .response false 500

/-- Attempt sequence with `n` rate-limited (429) responses followed by a
successful (200) response on every later attempt. -/
def first429ThenOk (n : Nat) : Nat → FetchOutcome := fun i =>
  if i < n then .response false 429 else .response true 200

/-- Geometric-series step used by the delay accounting: sleeping `d` now and
then doubling gives `d + 2d * (2 ^ k - 1) = d * (2 ^ (k + 1) - 1)`. -/
lemma backoff_geom_step (d k : Nat) : d + 2 * d * (2 ^ k - 1) = d * (2 ^ (k + 1) - 1) := by
  have h : 1 ≤ 2 ^ k := Nat.one_le_two_pow
  obtain ⟨y, hy⟩ : ∃ y, 2 ^ k = y + 1 := ⟨2 ^ k - 1, by omega⟩
  rw [pow_succ, hy]
  have h2 : (y + 1) * 2 - 1 = 2 * y + 1 := by omega
  have h3 : y + 1 - 1 = y := by omega
  rw [h2, h3]
  ring

/-- Arithmetic core of the delay bound: if `e` is below the budget after one
sleep of `d` (with the delay doubled and `k` iterations left), it is below
the budget with `k + 1` iterations left. -/
lemma backoff_delay_calc (d k acc e : Nat) (hk : 1 ≤ k)
    (he : e ≤ acc + d + d * 2 * (2 ^ (k - 1) - 1)) :
    e ≤ acc + d * (2 ^ (k + 1 - 1) - 1) := by
  have hstep := backoff_geom_step d (k - 1)
  have hk1 : k - 1 + 1 = k := by omega
  rw [hk1] at hstep
  have hk2 : k + 1 - 1 = k := by omega
  rw [hk2]
  have hcomm : d * 2 * (2 ^ (k - 1) - 1) = 2 * d * (2 ^ (k - 1) - 1) := by ring
  omega

/-- The loop never performs more `fetch` calls than `maxRetries`: each of the
`remaining` iterations adds one call to the `attempt` already performed. -/
lemma backoffGo_attempts_le (o : Nat → FetchOutcome) (m : Nat) :
    ∀ r a d acc, a + r = m → (backoffGo o m r a d acc).attempts ≤ m := by
  intro r
  induction r with
  | zero =>
    intro a d acc h
    simp only [backoffGo]
    omega
  | succ k ih =>
    intro a d acc h
    simp only [backoffGo]
    cases ho : o a with
    | response ok status =>
      cases ok with
      | true =>
        dsimp only
        omega
      | false =>
        dsimp only
        by_cases h1 : status = 429 ∧ a < m - 1
        · rw [if_pos h1]
          exact ih (a + 1) _ _ (by omega)
        · rw [if_neg h1]
          by_cases h2 : a < m - 1
          · rw [if_pos h2]
            exact ih (a + 1) _ _ (by omega)
          · rw [if_neg h2]
            dsimp only
            omega
    | networkError =>
      dsimp only
      by_cases h2 : a < m - 1
      · rw [if_pos h2]
        exact ih (a + 1) _ _ (by omega)
      · rw [if_neg h2]
        dsimp only
        omega

/-- Delay upper bound: starting at attempt `a = m - r` with current delay `d`
and `acc` already slept, the loop sleeps at most `d * (2 ^ (r - 1) - 1)` more
milliseconds (the final iteration never sleeps, since every sleeping branch
requires `attempt < maxRetries - 1`). -/
lemma backoffGo_totalDelay_le (o : Nat → FetchOutcome) (m : Nat) :
    ∀ r a d acc, a + r = m →
      (backoffGo o m r a d acc).totalDelay ≤ acc + d * (2 ^ (r - 1) - 1) := by
  intro r
  induction r with
  | zero =>
    intro a d acc h
    simp [backoffGo]
  | succ k ih =>
    intro a d acc h
    simp only [backoffGo]
    cases ho : o a with
    | response ok status =>
      cases ok with
      | true =>
        dsimp only
        omega
      | false =>
        dsimp only
        by_cases h1 : status = 429 ∧ a < m - 1
        · rw [if_pos h1]
          exact backoff_delay_calc d k acc _ (by omega) (ih (a + 1) (d * 2) (acc + d) (by omega))
        · rw [if_neg h1]
          by_cases h2 : a < m - 1
          · rw [if_pos h2]
            exact backoff_delay_calc d k acc _ (by omega) (ih (a + 1) (d * 2) (acc + d) (by omega))
          · rw [if_neg h2]
            dsimp only
            omega
    | networkError =>
      dsimp only
      by_cases h2 : a < m - 1
      · rw [if_pos h2]
        exact backoff_delay_calc d k acc _ (by omega) (ih (a + 1) (d * 2) (acc + d) (by omega))
      · rw [if_neg h2]
        dsimp only
        omega

/-- Exact run under persistent 429s: with `r = m - a ≥ 1` iterations left the
loop retries on every attempt but the last, rethrows there, and has slept
exactly `d * (2 ^ (r - 1) - 1)` additional milliseconds. -/
lemma backoffGo_always429 (m : Nat) :
    ∀ r a d acc, 1 ≤ r → a + r = m →
      backoffGo always429 m r a d acc =
        ⟨.threwFromCatch, m, acc + d * (2 ^ (r - 1) - 1)⟩ := by
  intro r
  induction r with
  | zero =>
    intro a d acc h1 h
    exact absurd h1 (by omega)
  | succ k ih =>
    intro a d acc _ h
    simp only [backoffGo, always429]
    by_cases h2 : a < m - 1
    · rw [if_pos ⟨trivial, h2⟩]
      rw [ih (a + 1) (d * 2) (acc + d) (by omega) (by omega)]
      simp only [BackoffResult.mk.injEq, true_and]
      have hk : 1 ≤ k := by omega
      have hstep := backoff_geom_step d (k - 1)
      have hk1 : k - 1 + 1 = k := by omega
      rw [hk1] at hstep
      have hk2 : k + 1 - 1 = k := by omega
      rw [hk2]
      have hA : d * 2 * (2 ^ (k - 1) - 1) = 2 * d * (2 ^ (k - 1) - 1) := by ring
      omega
    · rw [if_neg (fun hc => h2 hc.2), if_neg h2]
      simp only [BackoffResult.mk.injEq, true_and]
      refine ⟨by omega, ?_⟩
      have hk0 : k = 0 := by omega
      subst hk0
      simp

/-- Exact run when the first `n` attempts are rate limited and attempt `n`
succeeds: starting at attempt `a ≤ n` with `r = m - a` iterations left and
`n < m`, the loop returns the response of attempt `n` after `n + 1` calls,
having slept `d * (2 ^ (n - a) - 1)` additional milliseconds. -/
lemma backoffGo_first429ThenOk (n m : Nat) :
    ∀ r a d acc, a + r = m → a ≤ n → n < m →
      backoffGo (first429ThenOk n) m r a d acc =
        ⟨.returned n, n + 1, acc + d * (2 ^ (n - a) - 1)⟩ := by
  intro r
  induction r with
  | zero =>
    intro a d acc h ha hn
    exfalso
    omega
  | succ k ih =>
    intro a d acc h ha hn
    simp only [backoffGo, first429ThenOk]
    by_cases han : a < n
    · rw [if_pos han]
      dsimp only
      have h2 : a < m - 1 := by omega
      rw [if_pos ⟨rfl, h2⟩]
      rw [ih (a + 1) (d * 2) (acc + d) (by omega) (by omega) hn]
      simp only [BackoffResult.mk.injEq, true_and]
      have hna : 1 ≤ n - a := by omega
      have hstep := backoff_geom_step d (n - a - 1)
      have hk1 : n - a - 1 + 1 = n - a := by omega
      rw [hk1] at hstep
      have hA : d * 2 * (2 ^ (n - (a + 1)) - 1) = 2 * d * (2 ^ (n - a - 1) - 1) := by
        have hsub : n - (a + 1) = n - a - 1 := by omega
        rw [hsub]
        ring
      omega
    · rw [if_neg han]
      dsimp only
      have han2 : a = n := by omega
      subst han2
      simp only [BackoffResult.mk.injEq, true_and]
      simp

/-- The loop only executes `return response` under the `response.ok` guard,
so a run ending in `returned i` saw an `ok` response on attempt `i`. -/
lemma backoffGo_returned_isOk (o : Nat → FetchOutcome) (m : Nat) :
    ∀ r a d acc i, (backoffGo o m r a d acc).outcome = .returned i →
      (o i).isOk = true := by
  intro r
  induction r with
  | zero =>
    intro a d acc i hres
    simp [backoffGo] at hres
  | succ k ih =>
    intro a d acc i hres
    simp only [backoffGo] at hres
    cases ho : o a with
    | response ok status =>
      rw [ho] at hres
      cases ok with
      | true =>
        dsimp only at hres
        simp only [BackoffOutcome.returned.injEq] at hres
        subst hres
        rw [ho]
        rfl
      | false =>
        dsimp only at hres
        by_cases h1 : status = 429 ∧ a < m - 1
        · rw [if_pos h1] at hres
          exact ih _ _ _ _ hres
        · rw [if_neg h1] at hres
          by_cases h2 : a < m - 1
          · rw [if_pos h2] at hres
            exact ih _ _ _ _ hres
          · rw [if_neg h2] at hres
            simp at hres
    | networkError =>
      rw [ho] at hres
      dsimp only at hres
      by_cases h2 : a < m - 1
      · rw [if_pos h2] at hres
        exact ih _ _ _ _ hres
      · rw [if_neg h2] at hres
        simp at hres

example : exponentialBackoffFetch always429 5 = ⟨.threwFromCatch, 5, 15000⟩ := by decide
example : exponentialBackoffFetch always500 5 = ⟨.threwFromCatch, 5, 15000⟩ := by decide
example : exponentialBackoffFetch (first429ThenOk 3) 5 = ⟨.returned 3, 4, 7000⟩ := by decide
example : exponentialBackoffFetch alwaysOk 5 = ⟨.returned 0, 1, 0⟩ := by decide
example : exponentialBackoffFetch always429 1 = ⟨.threwFromCatch, 1, 0⟩ := by decide
example : exponentialBackoffFetch always429 0 = ⟨.threwExhausted, 0, 0⟩ := by decide

/-- Shape of one element of `results` in the `/api/trending-stocks` response
(interface `TrendingStock` in `src/frontend/app/trending/page.tsx`).  The
numeric payload fields are only passed through by the frontend, so their JS
number type is embedded as `Int`. -/
structure TrendingStock where
  ticker : String
  name : String
  current_price : Int
  today_change_percent : Int
  volume_factor : Int
  price_change_5d : Int
  reason : String
  deriving DecidableEq, Repr

/-- A trending stock together with the client-side `rank` field (interface
`RankedTrendingStock`). -/
structure RankedTrendingStock extends TrendingStock where
  rank : Nat
  deriving DecidableEq, Repr

/-- The ranking step of `getTrendingStocks`:
`(result.results || []).map((stock, index) => ({ ...stock, rank: index + 1 }))`. -/
def rankStocks (results : List TrendingStock) : List RankedTrendingStock :=
  results.mapIdx fun index stock => ⟨stock, index + 1⟩

/-- Everything `getTrendingStocks` can observe from its single `fetch` of
`/api/trending-stocks`: a thrown network/parse error, a non-`ok` HTTP
response, or a parsed body `{success, message, results}` (where a missing
`results` field is `none`, handled by `result.results || []`). -/
inductive TrendingApiOutcome where
  | networkError
  | httpError (status : Nat) (statusText : String)
  | parsed (success : Bool) (message : String) (results : Option (List TrendingStock))
  deriving DecidableEq, Repr

/-- Result of one call of `getTrendingStocks`: the list it resolves with and
the number of `fetch` calls it performed. -/
structure TrendingFetchRun where
  fetchCalls : Nat
  stocks : List RankedTrendingStock
  deriving DecidableEq, Repr

/-- Embedding of `getTrendingStocks` (`src/frontend/app/trending/page.tsx`):
one `fetch`; on `!response.ok` it throws, on `!result.success` it throws,
and the surrounding `catch` turns every thrown error into a resolved empty
list; otherwise it returns the ranked `results`. -/
def getTrendingStocks (o : TrendingApiOutcome) : TrendingFetchRun :=
  match o with
  | .networkError => ⟨1, []⟩
  | .httpError _ _ => ⟨1, []⟩
  | .parsed success _ results =>
    if success then ⟨1, rankStocks (results.getD [])⟩ else ⟨1, []⟩

/-- Class string of the sentiment badge in `StockDetails`
(`src/frontend/components/StockDetails.tsx`): a nested conditional on
`liveDetails.sentiment_status`. -/
def sentimentBadge (sentiment_status : String) : String :=
  if sentiment_status = "Positive" then "bg-green-100 text-green-800"
  else if sentiment_status = "Negative" then "bg-red-100 text-red-800"
  else "bg-yellow-100 text-yellow-800"

/-- Role of a chat message (the union type of the strings user and model). -/
inductive ChatRole where
  | user
  | model
  deriving DecidableEq, Repr

/-- A chat message as built by `callGeminiAPI`: role, the `parts` texts, and
the optional `sources` list of `{uri, title}` pairs (absent on the error
paths). -/
structure ChatMessage where
  role : ChatRole
  parts : List String
  sources : Option (List (String × String))
  deriving DecidableEq, Repr

/-- One grounding attribution of the model response; `uri`/`title` may be
missing (`attribution.web?.uri`, `attribution.web?.title`). -/
structure GroundingAttribution where
  uri : Option String
  title : Option String
  deriving DecidableEq, Repr

/-- The fields of `result.candidates?.[0]` that `callGeminiAPI` reads:
`contentPartText` is `candidate.content?.parts?.[0]?.text` (`none` when any
link of that optional chain is missing), `finishMessage` is
`candidate.finishMessage`, and `groundingAttributions` is
`candidate.groundingMetadata.groundingAttributions`. -/
structure GeminiCandidate where
  contentPartText : Option String
  finishMessage : Option String
  groundingAttributions : Option (List GroundingAttribution)
  deriving DecidableEq, Repr

/-- JS truthiness of `candidate && candidate.content?.parts?.[0]?.text`:
there must be a candidate whose first content part has a non-empty text
(the empty string is falsy in JS). -/
def hasText : Option GeminiCandidate → Bool
  | none => false
  | some c =>
    match c.contentPartText with
    | none => false
    | some t => !(t == "")

/-- The fixed message for the `Malformed function call` finish state. -/
def malformedApology : String :=
  "Apologies, there was a data processing issue with the API. Please simplify your question and ask again."

/-- The fixed message for every other response lacking a text part. -/
def genericApology : String :=
  "Sorry, I wasnâ€™t able to answer this question. Please try again after some time or rephrase your question."

/-- Embedding of `candidate?.finishMessage?.includes("Malformed function call")`
with JS optional chaining: an absent `finishMessage` makes the whole
expression `undefined`, hence falsy. -/
def finishMentionsMalformed (c : Option GeminiCandidate) : Bool :=
  match c with
  | none => false
  | some cand =>
    match cand.finishMessage with
    | none => false
    | some msg => msg.containsSubstr "Malformed function call"

/-- `sources` extraction in the success branch of `callGeminiAPI`:
map each attribution to `{uri, title}` and keep only those where both are
present (truthy filter on `source.uri && source.title`). -/
def extractSources (c : GeminiCandidate) : List (String × String) :=
  match c.groundingAttributions with
  | none => []
  | some attrs =>
    (attrs.filterMap fun a =>
      match a.uri, a.title with
      | some u, some t => if u == "" ∨ t == "" then none else some (u, t)
      | _, _ => none)

/-- Embedding of the response handling of `callGeminiAPI`
(`src/frontend/app/search/page.tsx`): given `result.candidates?.[0]`, build
the model chat message.  With a truthy text part it returns that text plus
its sources; otherwise it returns one of the two fixed apology strings,
chosen by whether `finishMessage` mentions a malformed function call. -/
def processGeminiCandidate (c : Option GeminiCandidate) : ChatMessage :=
  if hasText c then
    match c with
    | some cand =>
      ⟨.model, [cand.contentPartText.getD ""], some (extractSources cand)⟩
    | none => ⟨.model, [""], some []⟩
  else
    ⟨.model, [if finishMentionsMalformed c then malformedApology else genericApology], none⟩

/-- The slides list of `StockSlideshowClient`
(`src/frontend/components/StockScene.tsx`): `stocks.slice(0, 5)`. -/
def slidesOf (stocks : List RankedTrendingStock) : List RankedTrendingStock :=
  stocks.take 5

/-- The operations that update `currentIndex` in `StockSlideshowClient`:
the auto-advance interval, the two arrow buttons, and a click on the
indicator dot of slide `index`. -/
inductive SlideAction where
  | autoAdvance
  | goToPrev
  | goToNext
  | indicatorClick (index : Nat)
  deriving DecidableEq, Repr

/-- The new `currentIndex` produced by each operation, over a slides list of
length `slidesLength`.  `goToPrev` follows the source expression
`(prevIndex - 1 + slides.length) % slides.length`, evaluated in `Int` as in
JS and converted back (its value is non-negative). -/
def slideStep (slidesLength : Nat) (action : SlideAction) (currentIndex : Nat) : Nat :=
  match action with
  | .autoAdvance => (currentIndex + 1) % slidesLength
  | .goToNext => (currentIndex + 1) % slidesLength
  | .goToPrev => (((currentIndex : Int) - 1 + slidesLength) % slidesLength).toNat
  | .indicatorClick index => index

/-- The indicator buttons are rendered by `slides.map((_, index) => ...)`,
so a click can only carry an index below the slides length; the other
operations carry no data. -/
def SlideAction.valid (slidesLength : Nat) : SlideAction → Prop
  | .indicatorClick index => index < slidesLength
  | _ => True

example : sentimentBadge "Positive" = "bg-green-100 text-green-800" := by decide
example : getTrendingStocks (.parsed false "down" none) = ⟨1, []⟩ := by decide
example : slideStep 5 .goToPrev 0 = 4 := by decide
example : processGeminiCandidate none = ⟨.model, [genericApology], none⟩ := by decide

/-- C1 (code-bug evidence): with `maxRetries = 5` and every attempt answered
by HTTP 500 — a non-success status other than 429 — `exponentialBackoffFetch`
does NOT fail on the first attempt: the `throw` for the non-429 status lands
in the `catch` block of the same loop iteration, which retries, so the
wrapper performs all 5 attempts and sleeps 15000 ms before failing.  This
contradicts the specified behavior (fail immediately without retry) and the
comment in the code itself saying that only 429 and network errors are retried. -/
theorem c1_non429_status_is_retried_evidence :
    exponentialBackoffFetch always500 5 = ⟨.threwFromCatch, 5, 15000⟩ := by decide

/-- C2 (counterexample): no execution of `exponentialBackoffFetch` with
`maxRetries = 5` waits a total of `1000 * (2 ^ 5 - 1) = 31000` ms; the loop
sleeps at most `maxRetries - 1` times. -/
theorem c2_worst_case_delay_counterexample :
    ¬ ∃ outcomes : Nat → FetchOutcome,
        (exponentialBackoffFetch outcomes 5).totalDelay = 1000 * (2 ^ 5 - 1) := by
  rintro ⟨outcomes, h⟩
  have hb := backoffGo_totalDelay_le outcomes 5 5 0 1000 0 (by omega)
  have h2 : (backoffGo outcomes 5 5 0 1000 0).totalDelay = 1000 * (2 ^ 5 - 1) := h
  norm_num at hb h2
  omega

/-- C2 (amended): for `maxRetries ≥ 1` the total time the wrapper spends in
backoff sleeps is at most `1000 * (2 ^ (maxRetries - 1) - 1)` ms, and this
worst case is attained when every attempt is rate limited. -/
theorem c2_total_backoff_delay_bound (maxRetries : Nat) (outcomes : Nat → FetchOutcome)
    (h : 1 ≤ maxRetries) :
    (exponentialBackoffFetch outcomes maxRetries).totalDelay ≤
      1000 * (2 ^ (maxRetries - 1) - 1) ∧
    (exponentialBackoffFetch always429 maxRetries).totalDelay =
      1000 * (2 ^ (maxRetries - 1) - 1) := by
  constructor
  · have hb := backoffGo_totalDelay_le outcomes maxRetries maxRetries 0 1000 0 (by omega)
    simpa using hb
  · have he := backoffGo_always429 maxRetries maxRetries 0 1000 0 h (by omega)
    have h2 : exponentialBackoffFetch always429 maxRetries =
        ⟨.threwFromCatch, maxRetries, 0 + 1000 * (2 ^ (maxRetries - 1) - 1)⟩ := he
    rw [h2]
    simp

/-- Witness for C2 at `maxRetries = 5`: the hypothesis `1 ≤ 5` holds and the
bound specializes to 15000 ms, attained by persistent 429s. -/
theorem c2_total_backoff_delay_bound_witness :
    1 ≤ 5 ∧
    ((exponentialBackoffFetch always429 5).totalDelay ≤ 1000 * (2 ^ (5 - 1) - 1) ∧
     (exponentialBackoffFetch always429 5).totalDelay = 1000 * (2 ^ (5 - 1) - 1)) :=
  ⟨by decide, c2_total_backoff_delay_bound 5 always429 (by decide)⟩

/-- C3: the wrapper performs at most `maxRetries` fetch attempts on every
execution, and with `maxRetries = 5` and every attempt answered 429 it fails
with the rethrown terminal error after exactly 5 attempts. -/
theorem c3_at_most_maxRetries_attempts :
    (∀ (outcomes : Nat → FetchOutcome) (maxRetries : Nat),
        (exponentialBackoffFetch outcomes maxRetries).attempts ≤ maxRetries) ∧
    exponentialBackoffFetch always429 5 = ⟨.threwFromCatch, 5, 15000⟩ := by
  constructor
  · intro o m
    exact backoffGo_attempts_le o m m 0 1000 0 (by omega)
  · decide

/-- C4: with `n` rate-limited attempts followed by a success, and
`n + 1 ≤ maxRetries`, the wrapper returns the successful response of attempt
`n` (0-based) after exactly `n + 1` attempts, having slept
`1000 * (2 ^ n - 1)` ms in delays `1000, 2000, ..., 1000 * 2 ^ (n - 1)`. -/
theorem c4_n_429s_then_success (n maxRetries : Nat) (h : n + 1 ≤ maxRetries) :
    exponentialBackoffFetch (first429ThenOk n) maxRetries =
      ⟨.returned n, n + 1, 1000 * (2 ^ n - 1)⟩ ∧
    (first429ThenOk n n).isOk = true := by
  constructor
  · have he := backoffGo_first429ThenOk n maxRetries maxRetries 0 1000 0
      (by omega) (by omega) (by omega)
    have h2 : exponentialBackoffFetch (first429ThenOk n) maxRetries =
        ⟨.returned n, n + 1, 0 + 1000 * (2 ^ (n - 0) - 1)⟩ := he
    rw [h2]
    simp
  · simp [first429ThenOk, FetchOutcome.isOk]

/-- Witness for C4 with `n = 3` failures and `maxRetries = 5`: success on
the 4th attempt with 7000 ms total delay. -/
theorem c4_n_429s_then_success_witness :
    3 + 1 ≤ 5 ∧
    (exponentialBackoffFetch (first429ThenOk 3) 5 =
        ⟨.returned 3, 3 + 1, 1000 * (2 ^ 3 - 1)⟩ ∧
     (first429ThenOk 3 3).isOk = true) :=
  ⟨by decide, c4_n_429s_then_success 3 5 (by decide)⟩

/-- C9: whenever the wrapper returns (rather than throws), the returned
response is the one of attempt `i` and satisfies `response.ok`; the only
`return` statement sits under the `if (response.ok)` guard. -/
theorem c9_returned_response_is_ok (outcomes : Nat → FetchOutcome) (maxRetries i : Nat)
    (h : (exponentialBackoffFetch outcomes maxRetries).outcome = .returned i) :
    (outcomes i).isOk = true :=
  backoffGo_returned_isOk outcomes maxRetries maxRetries 0 1000 0 i h

/-- Witness for C9: with every attempt succeeding, the wrapper returns the
response of attempt 0, which is `ok`. -/
theorem c9_returned_response_is_ok_witness :
    (exponentialBackoffFetch alwaysOk 5).outcome = .returned 0 ∧
    (alwaysOk 0).isOk = true :=
  ⟨by decide, c9_returned_response_is_ok alwaysOk 5 0 (by decide)⟩

/-- C5: `getTrendingStocks` assigns rank `index + 1` to the stock at
position `index` of the API `results` list, preserving response order. -/
theorem c5_rank_assignment (results : List TrendingStock) (message : String) (i : Nat)
    (h : i < results.length) :
    (getTrendingStocks (.parsed true message (some results))).stocks.get? i =
      some ⟨results.get ⟨i, h⟩, i + 1⟩ := by
  show (rankStocks results).get? i = _
  have hlen : (rankStocks results).length = results.length := by
    simp [rankStocks]
  have h2 : i < (rankStocks results).length := by omega
  rw [List.get?_eq_get h2]
  congr 1
  exact List.get_mapIdx results
    (fun index stock => (⟨stock, index + 1⟩ : RankedTrendingStock)) i h h2

/-- Sample `results` payload used to instantiate the ranking theorem. -/
def sampleResults : List TrendingStock :=
  [⟨"TCS", "Tata Consultancy Services", 3500, 1, 2, 3, "IT demand"⟩,
   ⟨"INFY", "Infosys", 1500, 2, 3, 4, "earnings beat"⟩]

/-- Witness for C5: the second element of a concrete two-stock response is
ranked 2. -/
theorem c5_rank_assignment_witness :
    1 < sampleResults.length ∧
    (getTrendingStocks (.parsed true "ok" (some sampleResults))).stocks.get? 1 =
      some ⟨⟨"INFY", "Infosys", 1500, 2, 3, 4, "earnings beat"⟩, 1 + 1⟩ :=
  ⟨by decide, c5_rank_assignment sampleResults "ok" 1 (by decide)⟩

/-- C6: the sentiment badge class is the green one for `"Positive"`, the red
one for `"Negative"` and the yellow one for `"Neutral"`. -/
theorem c6_sentiment_badge_mapping :
    sentimentBadge "Positive" = "bg-green-100 text-green-800" ∧
    sentimentBadge "Negative" = "bg-red-100 text-red-800" ∧
    sentimentBadge "Neutral" = "bg-yellow-100 text-yellow-800" :=
  ⟨by decide, by decide, by decide⟩

/-- C7: whenever the model response lacks a (truthy) text part,
`callGeminiAPI` builds a model-role message whose text is one of the two
fixed apology strings, never content derived from the malformed response. -/
theorem c7_malformed_response_fixed_apology (c : Option GeminiCandidate)
    (h : hasText c = false) :
    (processGeminiCandidate c).role = .model ∧
    ((processGeminiCandidate c).parts = [malformedApology] ∨
     (processGeminiCandidate c).parts = [genericApology]) := by
  have hc : processGeminiCandidate c =
      ⟨.model, [if finishMentionsMalformed c then malformedApology else genericApology],
       none⟩ := by
    simp [processGeminiCandidate, h]
  rw [hc]
  refine ⟨rfl, ?_⟩
  cases hf : finishMentionsMalformed c
  · right
    simp
  · left
    simp

/-- Witness for C7: a response with no candidate at all yields the generic
apology in a model-role message. -/
theorem c7_malformed_response_fixed_apology_witness :
    hasText none = false ∧
    ((processGeminiCandidate none).role = .model ∧
     ((processGeminiCandidate none).parts = [malformedApology] ∨
      (processGeminiCandidate none).parts = [genericApology])) :=
  ⟨by decide, c7_malformed_response_fixed_apology none (by decide)⟩

/-- C8: `getTrendingStocks` performs exactly one fetch on every outcome (no
retry) and resolves with the empty list — never a thrown error — on a network
error, on a non-`ok` HTTP response, and on a body with `success = false`. -/
theorem c8_fetch_failures_empty_list :
    (∀ o : TrendingApiOutcome, (getTrendingStocks o).fetchCalls = 1) ∧
    getTrendingStocks .networkError = ⟨1, []⟩ ∧
    (∀ status statusText, getTrendingStocks (.httpError status statusText) = ⟨1, []⟩) ∧
    (∀ message results, getTrendingStocks (.parsed false message results) = ⟨1, []⟩) := by
  refine ⟨?_, rfl, fun _ _ => rfl, fun _ _ => rfl⟩
  intro o
  cases o with
  | networkError => rfl
  | httpError s t => rfl
  | parsed success m r => cases success <;> simp [getTrendingStocks]

/-- C10: over any non-empty slides list, every `currentIndex` update of
`StockSlideshowClient` (auto-advance, previous, next, indicator click on a
rendered dot) keeps the index inside `[0, slides.length)`, so
`slides[currentIndex]` stays in bounds. -/
theorem c10_slideshow_index_in_bounds (stocks : List RankedTrendingStock)
    (action : SlideAction) (currentIndex : Nat)
    (hne : slidesOf stocks ≠ [])
    (_hidx : currentIndex < (slidesOf stocks).length)
    (hact : action.valid (slidesOf stocks).length) :
    slideStep (slidesOf stocks).length action currentIndex < (slidesOf stocks).length := by
  have hpos : 0 < (slidesOf stocks).length := by
    cases hs : slidesOf stocks with
    | nil => exact absurd hs hne
    | cons a l => simp
  cases action with
  | autoAdvance => exact Nat.mod_lt _ hpos
  | goToNext => exact Nat.mod_lt _ hpos
  | goToPrev =>
    have h1 : (0 : Int) ≤
        ((currentIndex : Int) - 1 + (slidesOf stocks).length) % (slidesOf stocks).length :=
      Int.emod_nonneg _ (by omega)
    have h2 : ((currentIndex : Int) - 1 + (slidesOf stocks).length) % (slidesOf stocks).length <
        (slidesOf stocks).length :=
      Int.emod_lt_of_pos _ (by omega)
    simp only [slideStep]
    omega
  | indicatorClick index => exact hact

/-- A concrete ranked stock used to instantiate the slideshow theorem. -/
def sampleRankedStock : RankedTrendingStock :=
  ⟨⟨"TCS", "Tata Consultancy Services", 3500, 1, 2, 3, "IT demand"⟩, 1⟩

/-- Witness for C10: on a one-slide list, pressing the previous button at
index 0 stays in bounds (it wraps to index 0). -/
theorem c10_slideshow_index_in_bounds_witness :
    slidesOf [sampleRankedStock] ≠ [] ∧
    0 < (slidesOf [sampleRankedStock]).length ∧
    SlideAction.valid (slidesOf [sampleRankedStock]).length .goToPrev ∧
    slideStep (slidesOf [sampleRankedStock]).length .goToPrev 0 <
      (slidesOf [sampleRankedStock]).length :=
  ⟨by decide, by decide, trivial,
   c10_slideshow_index_in_bounds [sampleRankedStock] .goToPrev 0 (by decide) (by decide) trivial⟩
